import Mathlib

/-!
Shallow embedding of the MyGameList catalog aggregator
(source: src/app/lib/igdbServer.js, src/app/lib/matureFilter.js,
src/app/api/igdb/top-games/route.js).

JavaScript numbers are modelled as exact rationals; nullable JSON
values are modelled with Option.  Strings are modelled as Lean strings
and the JS string operations used by the source (toLowerCase, trim,
includes, split, join) are defined below on character lists so that
they compute by kernel reduction.
-/

namespace MyGameList

/-! JS string primitives. -/

/-- Whitespace test used by the regex class backslash-s and by trim. -/
def isWsChar (c : Char) : Bool := c.isWhitespace

/-- ASCII lower-casing of one character (JS toLowerCase on the ASCII range). -/
def jsLowerChar (c : Char) : Char :=
  if 'A' ≤ c && c ≤ 'Z' then Char.ofNat (c.toNat + 32) else c

/-- JS String.prototype.toLowerCase restricted to ASCII letters. -/
def jsToLower (s : String) : String := String.mk (s.toList.map jsLowerChar)

/-- JS String.prototype.trim: strip leading and trailing whitespace. -/
def jsTrim (s : String) : String :=
  String.mk (((s.toList.dropWhile isWsChar).reverse.dropWhile isWsChar).reverse)

/-- Check that the first list is a prefix of the second. -/
def isPrefixChars : List Char → List Char → Bool
  | [], _ => true
  | _ :: _, [] => false
  | a :: as, b :: bs => a == b && isPrefixChars as bs

/-- Check that the needle occurs as a contiguous run inside the haystack. -/
def isSubChars (needle : List Char) : List Char → Bool
  | [] => needle.isEmpty
  | c :: cs => isPrefixChars needle (c :: cs) || isSubChars needle cs

/-- JS String.prototype.includes: substring containment test. -/
def jsIncludes (s sub : String) : Bool := isSubChars sub.toList s.toList

/-- Replace every maximal whitespace run by a single space
(the regex replace of backslash-s-plus with one space in normalizeText).
The first argument records whether the previous character was whitespace. -/
def collapseWsAux : Bool → List Char → List Char
  | _, [] => []
  | prevWs, c :: cs =>
    if isWsChar c then
      if prevWs then collapseWsAux true cs
      else ' ' :: collapseWsAux true cs
    else c :: collapseWsAux false cs

/-- JS String(value ?? "") followed by join with spaces is modelled directly. -/
def joinSpace : List String → String
  | [] => ""
  | [s] => s
  | s :: rest => s ++ " " ++ joinSpace rest

/-! Data model: raw upstream records and normalized game records. -/

/-- An upstream sub-object carrying a name field; none models a missing
or non-string name. -/
structure NamedItem where
  item_name : Option String

deriving instance DecidableEq for NamedItem

/-- The weighted_rating_meta object attached to ranked top games. -/
structure WeightedMeta where
  globalAverage : Option ℚ
  minVotes : ℚ

deriving instance DecidableEq for WeightedMeta

/-- The tagsByType object of a normalized game. -/
structure TagsByType where
  genres : List String
  themes : List String
  modes : List String
  perspectives : List String

deriving instance DecidableEq for TagsByType

/-- A raw game record as returned by the upstream catalog API.
Every field is nullable; none models null or an absent field. -/
structure RawGame where
  id : Option Int := none
  name : Option String := none
  summary : Option String := none
  first_release_date : Option Int := none
  rating : Option ℚ := none
  rating_count : Option ℚ := none
  aggregated_rating : Option ℚ := none
  aggregated_rating_count : Option ℚ := none
  total_rating : Option ℚ := none
  total_rating_count : Option ℚ := none
  weighted_rating : Option ℚ := none
  weighted_rating_meta : Option WeightedMeta := none
  cover_image_id : Option String := none
  category : Option Int := none
  version_parent : Option Int := none
  parent_game : Option Int := none
  genres : List NamedItem := []
  themes : List NamedItem := []
  game_modes : List NamedItem := []
  player_perspectives : List NamedItem := []

deriving instance DecidableEq for RawGame

/-- A normalized game record as produced by normalizeGames.  The source
object emitted by normalizeGames does not carry version_parent or
parent_game properties; reading them in JS yields undefined, modelled
here as fields that normalizeGame always sets to none. -/
structure Game where
  id : Option Int
  name : String
  summary : Option String
  first_release_date : Option Int
  rating : Option ℚ
  rating_count : Option ℚ
  aggregated_rating : Option ℚ
  aggregated_rating_count : Option ℚ
  total_rating : Option ℚ
  total_rating_count : Option ℚ
  weighted_rating : Option ℚ
  weighted_rating_meta : Option WeightedMeta
  coverImageId : Option String
  coverUrl : Option String
  category : Option Int
  version_parent : Option Int
  parent_game : Option Int
  tags : List String
  tagsByType : TagsByType

deriving instance DecidableEq for Game

/-- JS Number coercion of a nullable rational: Number of null is 0. -/
def jsNum (x : Option ℚ) : ℚ := x.getD 0

/-- JS nullish coalescing on nullable values. -/
def jsNullish {α : Type} (a b : Option α) : Option α :=
  match a with
  | some x => some x
  | none => b

/-! Mature-content filter (src/app/lib/matureFilter.js). -/

/-- The DEFAULT_MATURE_KEYWORDS constant. -/
def DEFAULT_MATURE_KEYWORDS : List String :=
  ["nsfw", "porn", "porno", "pornographic", "hentai", "ecchi", "sex",
   "sexual", "erotic", "erotica", "nude", "nudity", "naked", "xxx",
   "adult", "fetish", "bdsm", "pervert"]

/-- The normalizeText helper: String(value ?? "") lower-cased, whitespace
runs collapsed to single spaces, then trimmed. -/
def normalizeText (value : Option String) : String :=
  jsTrim (String.mk (collapseWsAux false (jsToLower (value.getD "")).toList))

/-- Character class of the token split regex: lowercase ASCII letters
and digits survive tokenization, everything else separates tokens. -/
def isTokenChar (c : Char) : Bool :=
  ('a' ≤ c && c ≤ 'z') || ('0' ≤ c && c ≤ '9')

/-- Split into maximal runs of token characters, dropping empty pieces
(split on the non-alphanumeric regex followed by filter Boolean).
The accumulator holds the current run reversed. -/
def tokenizeAux : List Char → List Char → List String
  | acc, [] => if acc.isEmpty then [] else [String.mk acc.reverse]
  | acc, c :: cs =>
    if isTokenChar c then tokenizeAux (c :: acc) cs
    else if acc.isEmpty then tokenizeAux [] cs
    else String.mk acc.reverse :: tokenizeAux [] cs

/-- Tokens of a normalized haystack. -/
def tokenize (s : String) : List String := tokenizeAux [] s.toList

/-- The containsMatureKeyword function: a keyword whose normalized form
has length at most 4 must match a whole token, a longer keyword matches
as a substring.  Empty haystack or empty keywords never match. -/
def containsMatureKeyword (text : Option String) (keywords : List String) : Bool :=
  let haystack := normalizeText text
  if haystack == "" then false
  else
    let toks := tokenize haystack
    keywords.any fun raw =>
      let k := normalizeText (some raw)
      if k == "" then false
      else if k.length ≤ 4 then toks.contains k
      else jsIncludes haystack k

/-- The isMatureGame function applied to a normalized game record: the
title is the name field (never null after normalizeGames, so the title
fallback of the source cannot fire), the summary defaults to the empty
string and the flat tag list is joined with spaces. -/
def isMatureGame (game : Game) (keywords : List String) : Bool :=
  containsMatureKeyword (some game.name) keywords ||
  containsMatureKeyword (some (game.summary.getD "")) keywords ||
  containsMatureKeyword (some (joinSpace game.tags)) keywords

/-! Normalization (igdbServer.js lines 67-158). -/

/-- The getIgdbImageUrl template string. -/
def getIgdbImageUrl (imageId size : String) : String :=
  "https://images.igdb.com/igdb/image/upload/" ++ size ++ "/" ++ imageId ++ ".jpg"

/-- The loop body of normalizeNameList: trim each name (empty when the
name is missing or not a string), skip blanks, de-duplicate by the
lower-cased key, keep first-seen order.  The first argument carries the
set of keys already seen. -/
def normalizeNameListAux : List String → List NamedItem → List String
  | _, [] => []
  | seen, it :: rest =>
    let name := jsTrim (it.item_name.getD "")
    if name == "" then normalizeNameListAux seen rest
    else
      let key := jsToLower name
      if seen.contains key then normalizeNameListAux seen rest
      else name :: normalizeNameListAux (key :: seen) rest

/-- The normalizeNameList function. -/
def normalizeNameList (items : List NamedItem) : List String :=
  normalizeNameListAux [] items

/-- The per-record body of normalizeGames. -/
def normalizeGame (coverSize : String) (g : RawGame) : Game :=
  let imageId := g.cover_image_id
  let tbt : TagsByType :=
    { genres := normalizeNameList g.genres
      themes := normalizeNameList g.themes
      modes := normalizeNameList g.game_modes
      perspectives := normalizeNameList g.player_perspectives }
  { id := g.id
    name := g.name.getD ""
    summary := g.summary
    first_release_date := g.first_release_date
    rating := g.rating
    rating_count := g.rating_count
    aggregated_rating := g.aggregated_rating
    aggregated_rating_count := g.aggregated_rating_count
    total_rating := g.total_rating
    total_rating_count := g.total_rating_count
    weighted_rating := g.weighted_rating
    weighted_rating_meta := g.weighted_rating_meta
    coverImageId := imageId
    coverUrl :=
      match imageId with
      | some iid => if iid == "" then none else some (getIgdbImageUrl iid coverSize)
      | none => none
    category := g.category
    version_parent := none
    parent_game := none
    tags := tbt.genres ++ tbt.themes ++ tbt.modes ++ tbt.perspectives
    tagsByType := tbt }

/-- The normalizeGames function. -/
def normalizeGames (games : List RawGame) (coverSize : String) : List Game :=
  games.map (normalizeGame coverSize)

/-- The isMainGameRecord check as applied to normalized records: the
loose equality with null is true for both null and undefined. -/
def isMainGameRecord (game : Game) : Bool :=
  game.version_parent.isNone && game.parent_game.isNone

/-- The filterToMainGames function (applied to normalized records in
every branch of fetchIgdbGames). -/
def filterToMainGames (games : List Game) : List Game :=
  games.filter isMainGameRecord

/-! Rating helpers (igdbServer.js lines 79-104, 160-191). -/

/-- The mean helper: in the rational model Number of every entry is
finite (null coerces to 0), so every entry is summed and counted. -/
def meanAux : ℚ → ℕ → List (Option ℚ) → ℚ × ℕ
  | sum, count, [] => (sum, count)
  | sum, count, n :: rest => meanAux (sum + jsNum n) (count + 1) rest

/-- The mean function: null when the input is empty, else the average. -/
def mean (numbers : List (Option ℚ)) : Option ℚ :=
  let p := meanAux 0 0 numbers
  if p.2 = 0 then none else some (p.1 / (p.2 : ℚ))

/-- The computeWeightedRating function.  In the rational model the
Number.isFinite guards are vacuous; the remaining guards are the vote
count being non-positive (including a null count coerced to 0) and the
minimum-votes constant being negative. -/
def computeWeightedRating (averageRating voteCount globalAverage : Option ℚ)
    (minVotes : ℚ) : Option ℚ :=
  let R := jsNum averageRating
  let v := jsNum voteCount
  let C := jsNum globalAverage
  let m := minVotes
  if v ≤ 0 then none
  else if m < 0 then none
  else some (v / (v + m) * R + m / (v + m) * C)

/-- The getDisplayRating preference chain:
weighted_rating, then total_rating, then aggregated_rating, then rating. -/
def getDisplayRating (game : Game) : Option ℚ :=
  jsNullish game.weighted_rating
    (jsNullish game.total_rating
      (jsNullish game.aggregated_rating game.rating))

/-- JS short-circuit or on numbers as used in safeMinRating:
zero falls back to the default. -/
def jsOrQ (x d : ℚ) : ℚ := if x = 0 then d else x

/-- The normalizeTagFilters function: trim every entry, drop blanks. -/
def normalizeTagFilters (tags : List String) : List String :=
  (tags.map fun t => jsTrim t).filter fun t => t != ""

/-- The filter predicate of applyFilters, with safeMinRating and the
lower-cased wanted tag list already computed. -/
def keepGame (safeMinRating : ℚ) (wanted : List String) (hideMature : Bool)
    (g : Game) : Bool :=
  if hideMature && isMatureGame g DEFAULT_MATURE_KEYWORDS then false
  else if decide (0 < safeMinRating) &&
      decide ((getDisplayRating g).getD (-1) < safeMinRating) then false
  else if !wanted.isEmpty &&
      !(wanted.all fun w => (g.tags.map jsToLower).any fun tag => jsIncludes tag w)
    then false
  else true

/-- The applyFilters function. -/
def applyFilters (games : List Game) (minRating : ℚ) (tagFilters : List String)
    (hideMature : Bool) : List Game :=
  let safeMinRating := jsOrQ minRating 0
  let wanted := (normalizeTagFilters tagFilters).map jsToLower
  games.filter (keepGame safeMinRating wanted hideMature)

/-! Sorting.  JS Array.prototype.sort with a consistent comparator is a
stable sort; the source comparators define total preorders, so the
stable insertion sort below produces the same list as the engine sort. -/

/-- Stable insertion of an element into a sorted list: the element stays
before the first list element it compares less-or-equal to. -/
def insertSorted {α : Type} (le : α → α → Bool) (a : α) : List α → List α
  | [] => [a]
  | b :: bs => if le a b then a :: b :: bs else b :: insertSorted le a bs

/-- Stable insertion sort (model of Array.prototype.sort). -/
def sortBy {α : Type} (le : α → α → Bool) : List α → List α
  | [] => []
  | a :: as => insertSorted le a (sortBy le as)

/-! The top-games ranking pipeline
(igdbServer.js lines 299-381, no search query). -/

/-- JS Map.prototype.set on an association list: overwrite the value in
place when the key exists, else append. -/
def alistSet {α β : Type} [DecidableEq α] (m : List (α × β)) (k : α) (v : β) :
    List (α × β) :=
  if m.any fun p => p.1 = k then
    m.map fun p => if p.1 = k then (k, v) else p
  else m ++ [(k, v)]

/-- JS Map.prototype.get on an association list. -/
def alistGet {α β : Type} [DecidableEq α] (m : List (α × β)) (k : α) : Option β :=
  (m.find? fun p => decide (p.1 = k)).map fun p => p.2

/-- The mergedMap construction: insert every raw record with a numeric
id, keyed by id; Map.set keeps first-insertion order and the last value. -/
def mergeById (gs : List RawGame) : List (Int × RawGame) :=
  gs.foldl
    (fun m g =>
      match g.id with
      | some i => alistSet m i g
      | none => m)
    []

/-- The uniqueness pass shared by all branches: drop records with a null
id and every record whose id was already seen, keeping first occurrences. -/
def dedupByIdAux : List Int → List Game → List Game
  | _, [] => []
  | seen, g :: rest =>
    match g.id with
    | none => dedupByIdAux seen rest
    | some i =>
      if seen.contains i then dedupByIdAux seen rest
      else g :: dedupByIdAux (i :: seen) rest

/-- The unique accumulation loop (ids deduplicated, null ids dropped). -/
def dedupById (games : List Game) : List Game := dedupByIdAux [] games

/-- The IGDB_MAX_LIMIT_PER_REQUEST constant. -/
def IGDB_MAX_LIMIT_PER_REQUEST : ℕ := 500

/-- The minVotes constant of the top-games branch. -/
def TOP_GAMES_MIN_VOTES : ℚ := 2000

/-- Merged and normalized candidate pool of the top-games branch
(main-game filtering applied after normalization, as in the source). -/
def mainCandidates (rawByRating rawByVotes : List RawGame) (coverSize : String) :
    List Game :=
  filterToMainGames
    (normalizeGames ((mergeById (rawByRating ++ rawByVotes)).map fun p => p.2)
      coverSize)

/-- The global average of the top-games branch: mean of the baseline
sample total ratings, falling back to the candidate pool mean. -/
def pipelineGlobalAverage (rawByRating rawByVotes rawBaseline : List RawGame)
    (coverSize : String) : Option ℚ :=
  jsNullish
    (mean ((filterToMainGames (normalizeGames rawBaseline coverSize)).map
      fun g => g.total_rating))
    (mean ((mainCandidates rawByRating rawByVotes coverSize).map
      fun g => g.total_rating))

/-- Candidates paired with their Bayesian score, null scores dropped,
sorted by score descending (stable). -/
def rankedCandidates (rawByRating rawByVotes rawBaseline : List RawGame)
    (coverSize : String) : List (Game × ℚ) :=
  let globalAverage := pipelineGlobalAverage rawByRating rawByVotes rawBaseline coverSize
  sortBy (fun a b => decide (b.2 ≤ a.2))
    ((mainCandidates rawByRating rawByVotes coverSize).filterMap fun g =>
      match computeWeightedRating g.total_rating g.total_rating_count
          globalAverage TOP_GAMES_MIN_VOTES with
      | some s => some (g, s)
      | none => none)

/-- The top slice with the weighted rating and its meta attached. -/
def topSlice (rawByRating rawByVotes rawBaseline : List RawGame)
    (coverSize : String) : List Game :=
  let globalAverage := pipelineGlobalAverage rawByRating rawByVotes rawBaseline coverSize
  ((rankedCandidates rawByRating rawByVotes rawBaseline coverSize).take
      IGDB_MAX_LIMIT_PER_REQUEST).map
    fun x =>
      { x.1 with
        weighted_rating := some x.2
        weighted_rating_meta :=
          some { globalAverage := globalAverage, minVotes := TOP_GAMES_MIN_VOTES } }

/-- The full filtered candidate list of the top-games branch (the
gamesAll payload before pagination). -/
def topGamesAll (rawByRating rawByVotes rawBaseline : List RawGame)
    (coverSize : String) (minRating : ℚ) (tagFilters : List String)
    (hideMature : Bool) : List Game :=
  applyFilters (dedupById (topSlice rawByRating rawByVotes rawBaseline coverSize))
    minRating tagFilters hideMature

/-! The search branch and the new-releases branch
(igdbServer.js lines 246-298 and 382-414). -/

/-- Rating key of the top-games search comparator. -/
def searchRatingKey (g : Game) : ℚ :=
  (jsNullish g.total_rating (jsNullish g.aggregated_rating g.rating)).getD (-1)

/-- Vote-count key of the top-games search comparator. -/
def searchVotesKey (g : Game) : ℚ :=
  (jsNullish g.total_rating_count
    (jsNullish g.aggregated_rating_count g.rating_count)).getD (-1)

/-- Comparator of the top-games search sort, as a stable-sort order:
a may stay before b exactly when the JS comparator is non-positive. -/
def topSearchLe (a b : Game) : Bool :=
  if searchRatingKey b = searchRatingKey a then
    decide (searchVotesKey b ≤ searchVotesKey a)
  else decide (searchRatingKey b < searchRatingKey a)

/-- Release-date key of the new-releases comparator. -/
def releaseDateKey (g : Game) : Int := g.first_release_date.getD (-1)

/-- Comparator of the new-releases sort (release date descending). -/
def newReleasesLe (a b : Game) : Bool :=
  decide (releaseDateKey b ≤ releaseDateKey a)

/-- The already-released check of the new-releases search branch:
Number of a null date is 0 and fails the positivity test. -/
def isReleasedBy (nowSeconds : Int) (g : Game) : Bool :=
  decide (0 < g.first_release_date.getD 0) &&
  decide (g.first_release_date.getD 0 ≤ nowSeconds)

/-- The search branch of fetchIgdbGames: one upstream search query,
normalization, main-game filtering, a mode-dependent client-side sort,
de-duplication by id and the shared filters. -/
def searchGamesAll (raw : List RawGame) (mode coverSize : String)
    (nowSeconds : Int) (minRating : ℚ) (tagFilters : List String)
    (hideMature : Bool) : List Game :=
  let mainGames := filterToMainGames (normalizeGames raw coverSize)
  let sorted :=
    if mode == "new-releases" then
      sortBy newReleasesLe (mainGames.filter (isReleasedBy nowSeconds))
    else if mode == "top-games" then sortBy topSearchLe mainGames
    else mainGames
  applyFilters (dedupById sorted) minRating tagFilters hideMature

/-- The new-releases branch without a query: the upstream service
performs the release filter and the sort, the server normalizes,
keeps main games, de-duplicates and filters. -/
def newReleasesAll (raw : List RawGame) (coverSize : String) (minRating : ℚ)
    (tagFilters : List String) (hideMature : Bool) : List Game :=
  applyFilters (dedupById (filterToMainGames (normalizeGames raw coverSize)))
    minRating tagFilters hideMature

/-! The in-memory results cache and fetchIgdbGames
(igdbServer.js lines 193-235 and 419-434). -/

/-- The cache key. The source serializes the six components with
JSON.stringify in a fixed field order, which is injective on the
components, so the key is modelled as the components themselves. -/
structure CacheKey where
  mode : String
  q : String
  coverSize : String
  minRating : ℚ
  tagFilters : List String
  hideMature : Bool

deriving instance DecidableEq for CacheKey

/-- The cached payload: the full pre-pagination candidate list together
with the fetch timestamp (new Date().toISOString() modelled as the
millisecond clock value) and the echoed mode and query. -/
structure Payload where
  fetchedAt : Int
  mode : String
  q : Option String
  gamesAll : List Game

deriving instance DecidableEq for Payload

/-- One cache entry: the payload and the time it was stored. -/
structure CacheEntry where
  cachedAt : Int
  payload : Payload

deriving instance DecidableEq for CacheEntry

/-- The cachedResults map. -/
abbrev Cache := List (CacheKey × CacheEntry)

/-- The cache time-to-live: 5 * 60_000 milliseconds. -/
def CACHE_TTL_MS : Int := 5 * 60000

/-- The DEFAULT_PAGE_SIZE constant. -/
def DEFAULT_PAGE_SIZE : Int := 20

/-- JS short-circuit or on integers (Number(x) || d). -/
def jsOrI (x d : Int) : Int := if x = 0 then d else x

/-- The safePageSize clamp of fetchIgdbGames. -/
def safePageSize (pageSize : Int) : Int :=
  max 1 (min (jsOrI pageSize DEFAULT_PAGE_SIZE) DEFAULT_PAGE_SIZE)

/-- The safePage clamp of fetchIgdbGames. -/
def safePage (page : Int) : Int := max 1 (jsOrI page 1)

/-- The queryText computation: trim when the query is a string, else
the empty string. -/
def queryTextOf (q : Option String) : String := (q.map jsTrim).getD ""

/-- The request arguments of fetchIgdbGames. -/
structure FetchArgs where
  mode : String
  q : Option String := none
  page : Int := 1
  pageSize : Int := DEFAULT_PAGE_SIZE
  coverSize : String := "t_cover_big"
  minRating : ℚ := 0
  tagFilters : List String := []
  hideMature : Bool := true

deriving instance DecidableEq for FetchArgs

/-- The raw record lists the upstream service would return for each of
the queries fetchIgdbGames can issue (the upstream oracle of the model). -/
structure UpstreamData where
  searchRaw : List RawGame := []
  ratingRaw : List RawGame := []
  votesRaw : List RawGame := []
  baselineRaw : List RawGame := []
  releasesRaw : List RawGame := []

deriving instance DecidableEq for UpstreamData

/-- The cache key computed at the top of fetchIgdbGames. -/
def mkCacheKey (args : FetchArgs) : CacheKey :=
  { mode := args.mode
    q := queryTextOf args.q
    coverSize := args.coverSize
    minRating := jsOrQ args.minRating 0
    tagFilters := normalizeTagFilters args.tagFilters
    hideMature := args.hideMature }

/-- The JSON response shape of fetchIgdbGames. -/
structure PageResponse where
  fetchedAt : Int
  mode : String
  q : Option String
  page : Int
  pageSize : Int
  total : ℕ
  count : ℕ
  hasMore : Bool
  games : List Game

deriving instance DecidableEq for PageResponse

/-- JS Array.prototype.slice at a non-negative start index. -/
def sliceGames (all : List Game) (start size : Int) : List Game :=
  (all.drop start.toNat).take size.toNat

/-- Assembly of the response from a payload and the raw page arguments
(shared by the cache-hit return and the fresh return of the source). -/
def mkPageResponse (payload : Payload) (pageArg pageSizeArg : Int) : PageResponse :=
  let s := safePageSize pageSizeArg
  let p := safePage pageArg
  let all := payload.gamesAll
  let start := (p - 1) * s
  let pageGames := sliceGames all start s
  { fetchedAt := payload.fetchedAt
    mode := payload.mode
    q := payload.q
    page := p
    pageSize := s
    total := all.length
    count := pageGames.length
    hasMore := decide (start + s < (all.length : Int))
    games := pageGames }

/-- The mode dispatch of fetchIgdbGames computing the full candidate
list; none models the unsupported-mode throw. -/
def computeGamesAll (args : FetchArgs) (up : UpstreamData) (nowMs : Int) :
    Option (List Game) :=
  let queryText := queryTextOf args.q
  if queryText != "" then
    some (searchGamesAll up.searchRaw args.mode args.coverSize (nowMs / 1000)
      args.minRating args.tagFilters args.hideMature)
  else if args.mode == "top-games" then
    some (topGamesAll up.ratingRaw up.votesRaw up.baselineRaw args.coverSize
      args.minRating args.tagFilters args.hideMature)
  else if args.mode == "new-releases" then
    some (newReleasesAll up.releasesRaw args.coverSize args.minRating
      args.tagFilters args.hideMature)
  else none

/-- The cache lookup at the top of fetchIgdbGames: an entry is served
only when it exists and its age is below the time-to-live. -/
def freshEntry (cache : Cache) (key : CacheKey) (nowMs : Int) : Option CacheEntry :=
  match alistGet cache key with
  | some e => if nowMs - e.cachedAt < CACHE_TTL_MS then some e else none
  | none => none

/-- The fetchIgdbGames function as a state transformer over the cache.
On a fresh cache hit the cache is unchanged and the cached payload is
sliced; otherwise the branch payload is computed from the upstream
oracle, stored under the key with the current time, and sliced.  The
payload is returned alongside the response so that the pre-pagination
list of a call can be named; none models the unsupported-mode throw. -/
def fetchIgdbGamesModel (cache : Cache) (nowMs : Int) (args : FetchArgs)
    (up : UpstreamData) : Option (Cache × Payload × PageResponse) :=
  let key := mkCacheKey args
  match freshEntry cache key nowMs with
  | some e => some (cache, e.payload, mkPageResponse e.payload args.page args.pageSize)
  | none =>
    match computeGamesAll args up nowMs with
    | some all =>
      let queryText := queryTextOf args.q
      let payload : Payload :=
        { fetchedAt := nowMs
          mode := args.mode
          q := if queryText != "" then some queryText else none
          gamesAll := all }
      some (alistSet cache key { cachedAt := nowMs, payload := payload }, payload,
        mkPageResponse payload args.page args.pageSize)
    | none => none

/-! Concurrency model for the single-flight question.  fetchIgdbGames
reads the cache at entry (line 219) and writes it only after its
upstream fetch completes (line 419); there is no in-flight promise map.
A request performs an upstream fetch exactly when its entry read finds
no fresh entry. -/

/-- Number of upstream fetches one call performs, determined by the
cache state it reads at entry. -/
def fetchCountFrom (cache : Cache) (nowMs : Int) (args : FetchArgs) : ℕ :=
  if (freshEntry cache (mkCacheKey args) nowMs).isSome then 0 else 1

/-- Two requests for the same arguments where the second performs its
entry read before the first has stored its result: both reads see the
initial cache state.  The value is the total number of upstream fetches
under this interleaving. -/
def concurrentFetchCount (cache : Cache) (nowMs : Int) (args : FetchArgs) : ℕ :=
  fetchCountFrom cache nowMs args + fetchCountFrom cache nowMs args

/-! Upstream error propagation and the HTTP route
(igdbServer.js lines 17-65, route.js). -/

/-- An upstream HTTP response to the token request; the body field is
the JSON.stringify rendering of the parsed response body. -/
structure TokenResponse where
  ok : Bool
  body : String
  access_token : String
  expires_in : Int

/-- An upstream HTTP response to a catalog query. -/
structure QueryResponse where
  ok : Bool
  body : String
  games : List RawGame

/-- One upstream HTTP request issued by the aggregator. -/
inductive UpstreamCall
  | tokenRequest
  | queryRequest (idx : ℕ)

deriving instance DecidableEq for UpstreamCall

/-- The getAccessToken error path: a non-ok response throws a generic
failure carrying the serialized response body. -/
def getAccessTokenM (r : TokenResponse) : Except String String :=
  if r.ok then Except.ok r.access_token
  else Except.error ("Token request failed: " ++ r.body)

/-- The igdbQuery error path: a non-ok response throws a generic
failure carrying the serialized response body. -/
def igdbQueryM (r : QueryResponse) : Except String (List RawGame) :=
  if r.ok then Except.ok r.games
  else Except.error ("IGDB query failed: " ++ r.body)

/-- The upstream responses of one top-games request: the token request
and the three concurrent catalog queries. -/
structure TopGamesUpstream where
  tokenResp : TokenResponse
  ratingResp : QueryResponse
  votesResp : QueryResponse
  baselineResp : QueryResponse

/-- Promise.all over the three query results: every request is issued;
the aggregate rejects with the error of the first failing one
(settlement order modelled as issue order). -/
def promiseAll3 (a b c : Except String (List RawGame)) :
    Except String (List RawGame × List RawGame × List RawGame) :=
  match a, b, c with
  | Except.ok x, Except.ok y, Except.ok z => Except.ok (x, y, z)
  | Except.error e, _, _ => Except.error e
  | Except.ok _, Except.error e, _ => Except.error e
  | Except.ok _, Except.ok _, Except.error e => Except.error e

/-- The upstream interaction of one top-games request, with the list of
issued HTTP requests: the token request first; only when it succeeds are
the three queries issued (each exactly once, none retried). -/
def topGamesUpstreamRun (u : TopGamesUpstream) :
    List UpstreamCall × Except String (List RawGame × List RawGame × List RawGame) :=
  match getAccessTokenM u.tokenResp with
  | Except.error e => ([UpstreamCall.tokenRequest], Except.error e)
  | Except.ok _ =>
    ([UpstreamCall.tokenRequest, UpstreamCall.queryRequest 0,
      UpstreamCall.queryRequest 1, UpstreamCall.queryRequest 2],
     promiseAll3 (igdbQueryM u.ratingResp) (igdbQueryM u.votesResp)
       (igdbQueryM u.baselineResp))

/-- The body of the failing upstream response, in issue order (the body
the surfaced error message must contain). -/
def firstFailingBody (u : TopGamesUpstream) : String :=
  if !u.tokenResp.ok then u.tokenResp.body
  else if !u.ratingResp.ok then u.ratingResp.body
  else if !u.votesResp.ok then u.votesResp.body
  else u.baselineResp.body

/-- The JSON body of the HTTP route response. -/
inductive RouteBody
  | payload (p : PageResponse)
  | errorBody (message : String)

deriving instance DecidableEq for RouteBody

/-- The try/catch of the GET route handler: a successful fetch is
returned as JSON with the default status, a thrown failure becomes a
JSON object with an error field and HTTP status 500. -/
def routeGET (result : Except String PageResponse) : Int × RouteBody :=
  match result with
  | Except.ok p => (200, RouteBody.payload p)
  | Except.error e => (500, RouteBody.errorBody e)

/-! Concrete records used to evaluate the pipeline at specific inputs. -/

/-- A normalized record with an RPG tag and no rating values at all. -/
def exampleUnratedGame : Game :=
  normalizeGame "t_cover_big"
    { id := some 5, name := some "Tower Quest",
      genres := [{ item_name := some "RPG" }] }

/-- A candidate whose total rating 79 sits below 80 while its vote count
is low, so its Bayesian score is pulled up toward the global average. -/
def rawQuest : RawGame :=
  { id := some 1, name := some "Quest of Realms", total_rating := some 79,
    total_rating_count := some 100, genres := [{ item_name := some "RPG" }] }

/-- A candidate with a missing total rating but a positive vote count. -/
def rawMystery : RawGame :=
  { id := some 2, name := some "Mystery Title", total_rating := none,
    total_rating_count := some 50 }

/-- Baseline sample record with total rating 90. -/
def rawBaseA : RawGame :=
  { id := some 100, name := some "Base A", total_rating := some 90,
    total_rating_count := some 5000 }

/-- Baseline sample record with total rating 80 (baseline mean 85). -/
def rawBaseB : RawGame :=
  { id := some 101, name := some "Base B", total_rating := some 80,
    total_rating_count := some 4000 }

/-- A raw record whose genre names arrive in non-alphabetical order. -/
def rawUnsortedGenres : RawGame :=
  { id := some 7, name := some "Example Game",
    genres := [{ item_name := some "Strategy" }, { item_name := some "Adventure" }] }

/-- The record rawQuest as it appears in the ranked top-games output:
its Bayesian score against the baseline mean 85 is
(100 * 79 + 2000 * 85) / 2100 = 593/7. -/
def questRanked : Game :=
  { normalizeGame "t_cover_big" rawQuest with
    weighted_rating := some (593/7)
    weighted_rating_meta :=
      some { globalAverage := some 85, minVotes := TOP_GAMES_MIN_VOTES } }

/-- The record rawMystery as it appears in the ranked top-games output:
its missing total rating coerces to 0, so its score is
(50 * 0 + 2000 * 85) / 2050 = 3400/41. -/
def mysteryRanked : Game :=
  { normalizeGame "t_cover_big" rawMystery with
    weighted_rating := some (3400/41)
    weighted_rating_meta :=
      some { globalAverage := some 85, minVotes := TOP_GAMES_MIN_VOTES } }

/-- A plain top-games request with default paging and filters. -/
def argsTop : FetchArgs := { mode := "top-games" }

/-- Upstream oracle delivering rawMystery as the candidate pool and the
two baseline records. -/
def upMystery : UpstreamData :=
  { ratingRaw := [rawMystery], baselineRaw := [rawBaseA, rawBaseB] }

/-- The payload the top-games branch builds from upMystery at time 0. -/
def payloadMystery : Payload :=
  { fetchedAt := 0, mode := "top-games", q := none, gamesAll := [mysteryRanked] }

/-- The matching relation of one keyword against one text field as the
specification states it: a keyword whose normalized form has at most 4
characters matches only as a whole token of the normalized text, a
longer keyword matches as a substring. -/
def keywordMatchesText (k : String) (text : Option String) : Prop :=
  if (normalizeText (some k)).length ≤ 4 then
    normalizeText (some k) ∈ tokenize (normalizeText text)
  else jsIncludes (normalizeText text) (normalizeText (some k)) = true

/-- Modelled from the claim wording of the filter contract (spec section
Testable Properties): the conditions under which a record may be present
in filtered output, stated literally, for comparison with applyFilters. -/
def claimFilterCondition (g : Game) (minRating : ℚ) (tagFilters : List String)
    (hideMature : Bool) : Prop :=
  (hideMature = false ∨ isMatureGame g DEFAULT_MATURE_KEYWORDS = false) ∧
  ((∃ r, getDisplayRating g = some r ∧ minRating ≤ r) ∨ minRating = 0) ∧
  (∀ w ∈ tagFilters, ∃ t ∈ g.tags, jsIncludes (jsToLower t) (jsToLower w) = true)

/-! General lemmas about the embedded operations. -/

theorem mem_insertSorted {α : Type} (le : α → α → Bool) (a x : α) (l : List α) :
    x ∈ insertSorted le a l ↔ x = a ∨ x ∈ l := by
  induction l with
  | nil => simp [insertSorted]
  | cons b bs ih =>
    simp only [insertSorted]
    split
    · simp
    · simp only [List.mem_cons, ih]
      tauto

theorem mem_sortBy {α : Type} (le : α → α → Bool) (x : α) (l : List α) :
    x ∈ sortBy le l ↔ x ∈ l := by
  induction l with
  | nil => simp [sortBy]
  | cons b bs ih =>
    simp [sortBy, mem_insertSorted, ih]

theorem dedupByIdAux_subset (seen : List Int) (gs : List Game) :
    ∀ g ∈ dedupByIdAux seen gs, g ∈ gs := by
  induction gs generalizing seen with
  | nil => simp [dedupByIdAux]
  | cons b bs ih =>
    intro g hg
    cases hb : b.id with
    | none =>
      simp only [dedupByIdAux, hb] at hg
      exact List.mem_cons_of_mem _ (ih seen g hg)
    | some i =>
      simp only [dedupByIdAux, hb] at hg
      by_cases hs : seen.contains i = true
      · rw [if_pos hs] at hg
        exact List.mem_cons_of_mem _ (ih seen g hg)
      · rw [if_neg hs] at hg
        rcases List.mem_cons.mp hg with hg1 | hg1
        · exact hg1 ▸ List.mem_cons_self _ _
        · exact List.mem_cons_of_mem _ (ih _ g hg1)

theorem dedupByIdAux_ids (seen : List Int) (gs : List Game) :
    ((dedupByIdAux seen gs).map Game.id).Nodup ∧
      ∀ g ∈ dedupByIdAux seen gs, ∃ i, g.id = some i ∧ i ∉ seen := by
  induction gs generalizing seen with
  | nil => simp [dedupByIdAux]
  | cons b bs ih =>
    cases hb : b.id with
    | none =>
      simpa only [dedupByIdAux, hb] using ih seen
    | some i =>
      simp only [dedupByIdAux, hb]
      by_cases hs : seen.contains i = true
      · rw [if_pos hs]
        exact ih seen
      · rw [if_neg hs]
        obtain ⟨ihn, ihm⟩ := ih (i :: seen)
        constructor
        · simp only [List.map_cons, List.nodup_cons]
          refine ⟨?_, ihn⟩
          intro hmem
          obtain ⟨g, hg, hgid⟩ := List.mem_map.1 hmem
          obtain ⟨j, hj, hjs⟩ := ihm g hg
          rw [hj, hb] at hgid
          have hji : j = i := Option.some.inj hgid
          exact hjs (hji ▸ List.mem_cons_self j seen)
        · intro g hg
          rcases List.mem_cons.mp hg with hg1 | hg1
          · refine ⟨i, hg1 ▸ hb, ?_⟩
            simpa using hs
          · obtain ⟨j, hj, hjs⟩ := ihm g hg1
            exact ⟨j, hj, fun hmem => hjs (List.mem_cons_of_mem _ hmem)⟩

theorem dedupById_ids_nodup (gs : List Game) :
    ((dedupById gs).map Game.id).Nodup :=
  (dedupByIdAux_ids [] gs).1

theorem mem_dedupById (gs : List Game) : ∀ g ∈ dedupById gs, g ∈ gs :=
  dedupByIdAux_subset [] gs

theorem keepGame_eq_true_iff (m : ℚ) (w : List String) (hm : Bool) (g : Game) :
    keepGame m w hm g = true ↔
      ((hm = true → isMatureGame g DEFAULT_MATURE_KEYWORDS = false) ∧
       (0 < m → m ≤ (getDisplayRating g).getD (-1)) ∧
       ∀ x ∈ w, ∃ t ∈ g.tags, jsIncludes (jsToLower t) x = true) := by
  unfold keepGame
  split_ifs with h1 h2 h3
  · simp only [Bool.and_eq_true] at h1
    simp only [false_iff, not_and]
    intro hmat
    rw [hmat h1.1] at h1
    exact absurd h1.2 (by simp)
  · simp only [Bool.and_eq_true, decide_eq_true_eq] at h2
    simp only [false_iff]
    rintro ⟨-, hrate, -⟩
    exact absurd h2.2 (not_lt.mpr (hrate h2.1))
  · simp only [Bool.and_eq_true, Bool.not_eq_true'] at h3
    simp only [false_iff]
    rintro ⟨-, -, htags⟩
    have hall : (w.all fun x =>
        (g.tags.map jsToLower).any fun tag => jsIncludes tag x) = true := by
      rw [List.all_eq_true]
      intro x hx
      obtain ⟨t, ht, hinc⟩ := htags x hx
      rw [List.any_eq_true]
      exact ⟨jsToLower t, List.mem_map_of_mem _ ht, hinc⟩
    rw [hall] at h3
    exact absurd h3.2 (by simp)
  · simp only [true_iff]
    refine ⟨?_, ?_, ?_⟩
    · intro hmt
      cases hmat : isMatureGame g DEFAULT_MATURE_KEYWORDS with
      | false => rfl
      | true => exact absurd (by rw [hmt, hmat]; rfl) h1
    · intro hpos
      by_contra hlt
      exact h2 (by simp [hpos, not_le.mp hlt])
    · intro x hx
      cases hemp : w.isEmpty with
      | true =>
        rw [List.isEmpty_iff] at hemp
        subst hemp
        cases hx
      | false =>
        cases hall : (w.all fun x =>
            (g.tags.map jsToLower).any fun tag => jsIncludes tag x) with
        | false => exact absurd (by rw [hemp, hall]; rfl) h3
        | true =>
          have hx2 := List.all_eq_true.mp hall x hx
          obtain ⟨t, ht, hinc⟩ := List.any_eq_true.mp hx2
          obtain ⟨t0, ht0, rfl⟩ := List.mem_map.1 ht
          exact ⟨t0, ht0, hinc⟩

theorem mem_applyFilters (games : List Game) (minRating : ℚ)
    (tagFilters : List String) (hideMature : Bool) (g : Game) :
    g ∈ applyFilters games minRating tagFilters hideMature ↔
      g ∈ games ∧
        keepGame (jsOrQ minRating 0) ((normalizeTagFilters tagFilters).map jsToLower)
          hideMature g = true := by
  simp [applyFilters, List.mem_filter]

theorem find?_map_set {α β : Type} [DecidableEq α] (m : List (α × β)) (k : α) (v : β)
    (h : (m.any fun p => decide (p.1 = k)) = true) :
    ((m.map fun p => if p.1 = k then (k, v) else p).find?
      (fun p => decide (p.1 = k))).map (fun p => p.2) = some v := by
  induction m with
  | nil => simp at h
  | cons p ps ih =>
    simp only [List.any_cons, Bool.or_eq_true, decide_eq_true_eq] at h
    by_cases hp : p.1 = k
    · rw [List.map_cons, if_pos hp, List.find?_cons_of_pos _ (by simp)]
      rfl
    · rw [List.map_cons, if_neg hp, List.find?_cons_of_neg _ (by simp [hp])]
      exact ih (by rcases h with h | h; exact absurd h hp; simpa using h)

theorem find?_append_new {α β : Type} [DecidableEq α] (m : List (α × β)) (k : α) (v : β)
    (h : (m.any fun p => decide (p.1 = k)) = false) :
    ((m ++ [(k, v)]).find? (fun p => decide (p.1 = k))).map (fun p => p.2) =
      some v := by
  induction m with
  | nil => simp [List.find?]
  | cons p ps ih =>
    simp only [List.any_cons, Bool.or_eq_false_iff, decide_eq_false_iff_not] at h
    rw [List.cons_append, List.find?_cons_of_neg _ (by simp [h.1])]
    exact ih (by simp [h.2])

theorem alistGet_alistSet_self {α β : Type} [DecidableEq α]
    (m : List (α × β)) (k : α) (v : β) :
    alistGet (alistSet m k v) k = some v := by
  unfold alistSet alistGet
  split_ifs with h
  · exact find?_map_set m k v h
  · exact find?_append_new m k v (Bool.eq_false_iff.mpr h)

theorem string_mk_ne_empty {l : List Char} (h : l ≠ []) : String.mk l ≠ "" := by
  intro hcon
  apply h
  have := congrArg String.data hcon
  simpa using this

theorem isPrefixChars_refl (l : List Char) : isPrefixChars l l = true := by
  induction l with
  | nil => rfl
  | cons c cs ih => simp [isPrefixChars, ih]

theorem isSubChars_append (pre s : List Char) :
    isSubChars s (pre ++ s) = true := by
  induction pre with
  | nil =>
    cases s with
    | nil => rfl
    | cons c cs =>
      show (isPrefixChars (c :: cs) (c :: cs) || isSubChars (c :: cs) cs) = true
      rw [isPrefixChars_refl]
      rfl
  | cons c cs ih =>
    show (isPrefixChars s (c :: (cs ++ s)) || isSubChars s (cs ++ s)) = true
    rw [ih]
    simp

theorem jsIncludes_append_left (pre s : String) :
    jsIncludes (pre ++ s) s = true := by
  unfold jsIncludes
  have hl : (pre ++ s).toList = pre.toList ++ s.toList := by
    simp [String.toList]
  rw [hl]
  exact isSubChars_append _ _

theorem tokenizeAux_ne_nil (cs : List Char) :
    ∀ acc t, t ∈ tokenizeAux acc cs → t ≠ "" := by
  induction cs with
  | nil =>
    intro acc t ht
    simp only [tokenizeAux] at ht
    by_cases hacc : acc.isEmpty = true
    · rw [if_pos hacc] at ht
      cases ht
    · rw [if_neg hacc] at ht
      rcases List.mem_singleton.mp ht with rfl
      refine string_mk_ne_empty fun hrev => ?_
      rw [List.reverse_eq_nil_iff] at hrev
      subst hrev
      simp at hacc
  | cons c cs ih =>
    intro acc t ht
    simp only [tokenizeAux] at ht
    by_cases htc : isTokenChar c = true
    · rw [if_pos htc] at ht
      exact ih _ t ht
    · rw [if_neg htc] at ht
      by_cases hacc : acc.isEmpty = true
      · rw [if_pos hacc] at ht
        exact ih _ t ht
      · rw [if_neg hacc] at ht
        rcases List.mem_cons.mp ht with rfl | ht'
        · refine string_mk_ne_empty fun hrev => ?_
          rw [List.reverse_eq_nil_iff] at hrev
          subst hrev
          simp at hacc
        · exact ih _ t ht'

theorem not_mem_tokenize_empty (s : String) : ¬ "" ∈ tokenize s :=
  fun h => tokenizeAux_ne_nil s.toList [] "" h rfl

theorem normalizeNameListAux_nodup (items : List NamedItem) :
    ∀ seen, (((normalizeNameListAux seen items).map jsToLower).Nodup ∧
      ∀ n ∈ normalizeNameListAux seen items, jsToLower n ∉ seen ∧ n ≠ "") := by
  induction items with
  | nil => intro seen; simp [normalizeNameListAux]
  | cons it rest ih =>
    intro seen
    simp only [normalizeNameListAux]
    by_cases hname : jsTrim (it.item_name.getD "") == ""
    · rw [if_pos hname]
      exact ih seen
    · rw [if_neg hname]
      by_cases hseen : seen.contains (jsToLower (jsTrim (it.item_name.getD ""))) = true
      · rw [if_pos hseen]
        exact ih seen
      · rw [if_neg hseen]
        obtain ⟨ihn, ihm⟩ := ih (jsToLower (jsTrim (it.item_name.getD "")) :: seen)
        refine ⟨?_, ?_⟩
        · simp only [List.map_cons, List.nodup_cons]
          refine ⟨fun hmem => ?_, ihn⟩
          obtain ⟨n, hn, hlow⟩ := List.mem_map.1 hmem
          exact (ihm n hn).1 (hlow ▸ List.mem_cons_self _ _)
        · intro n hn
          rcases List.mem_cons.mp hn with rfl | hn'
          · exact ⟨by simpa using hseen, by simpa using hname⟩
          · obtain ⟨h1, h2⟩ := ihm n hn'
            exact ⟨fun hmem => h1 (List.mem_cons_of_mem _ hmem), h2⟩

theorem normalizeNameList_nodup (items : List NamedItem) :
    ((normalizeNameList items).map jsToLower).Nodup ∧
      ∀ n ∈ normalizeNameList items, n ≠ "" := by
  obtain ⟨h1, h2⟩ := normalizeNameListAux_nodup items []
  exact ⟨h1, fun n hn => (h2 n hn).2⟩

theorem jsOrQ_zero (m : ℚ) : jsOrQ m 0 = m := by
  by_cases h : m = 0 <;> simp [jsOrQ, h]

theorem keywordMatchesText_empty_hay {k : String} (text : Option String)
    (hh : normalizeText text = "") : ¬ keywordMatchesText k text := by
  intro hmat
  unfold keywordMatchesText at hmat
  rw [hh] at hmat
  split at hmat
  · rw [show tokenize "" = [] from rfl] at hmat
    cases hmat
  · next hlen =>
    cases hd : (normalizeText (some k)).toList with
    | nil =>
      apply hlen
      have h2 : (normalizeText (some k)).data = [] := hd
      have h3 : (normalizeText (some k)).length =
          (normalizeText (some k)).data.length := rfl
      rw [h3, h2]
      simp
    | cons a as =>
      unfold jsIncludes at hmat
      rw [hd, show ("" : String).toList = [] from rfl] at hmat
      simp [isSubChars] at hmat

theorem containsMatureKeyword_iff (text : Option String) (keywords : List String) :
    containsMatureKeyword text keywords = true ↔
      ∃ k ∈ keywords, keywordMatchesText k text := by
  unfold containsMatureKeyword
  by_cases hhay : normalizeText text == ""
  · rw [if_pos hhay]
    have hh : normalizeText text = "" := by simpa using hhay
    apply iff_of_false (by simp)
    rintro ⟨k, hk, hmat⟩
    exact keywordMatchesText_empty_hay text hh hmat
  · rw [if_neg hhay]
    rw [List.any_eq_true]
    apply exists_congr
    intro k
    apply and_congr_right
    intro hk
    by_cases hke : normalizeText (some k) == ""
    · rw [if_pos hke]
      have hkk : normalizeText (some k) = "" := by simpa using hke
      apply iff_of_false (by simp)
      intro hmat
      unfold keywordMatchesText at hmat
      rw [hkk] at hmat
      rw [if_pos (show ("" : String).length ≤ 4 by decide)] at hmat
      exact not_mem_tokenize_empty _ hmat
    · rw [if_neg hke]
      by_cases hlen : (normalizeText (some k)).length ≤ 4
      · rw [if_pos hlen]
        unfold keywordMatchesText
        rw [if_pos hlen]
        exact List.elem_iff
      · rw [if_neg hlen]
        unfold keywordMatchesText
        rw [if_neg hlen]

/-- C7: a game record is classified mature exactly when some keyword of
the list matches its name, its summary, or its joined tag text, where a
keyword normalized to at most 4 characters matches only as a whole token
of the normalized text and a longer keyword matches as a substring. -/
theorem isMatureGame_iff_keyword_matches (g : Game) (keywords : List String) :
    isMatureGame g keywords = true ↔
      ∃ k ∈ keywords,
        (keywordMatchesText k (some g.name) ∨
         keywordMatchesText k (some (g.summary.getD "")) ∨
         keywordMatchesText k (some (joinSpace g.tags))) := by
  simp only [isMatureGame, Bool.or_eq_true, containsMatureKeyword_iff]
  simp only [and_or_left, exists_or, or_assoc]

/-- C2 counterexample: when a record's raw rating equals the global
average, every vote count yields exactly the same weighted score, so the
record with more votes is not strictly closer to its raw rating than the
one with fewer votes. -/
theorem weighted_closer_strict_fails :
    computeWeightedRating (some 50) (some 2) (some 50) TOP_GAMES_MIN_VOTES = some 50 ∧
    computeWeightedRating (some 50) (some 1) (some 50) TOP_GAMES_MIN_VOTES = some 50 ∧
    ¬(|(50:ℚ) - 50| < |(50:ℚ) - 50|) := by
  refine ⟨?_, ?_, by simp⟩ <;>
    norm_num [computeWeightedRating, jsNum, TOP_GAMES_MIN_VOTES]

theorem computeWeightedRating_some {R v C m s : ℚ} (hv : 0 < v) (hm : 0 ≤ m)
    (h : computeWeightedRating (some R) (some v) (some C) m = some s) :
    s = v / (v + m) * R + m / (v + m) * C := by
  simp only [computeWeightedRating, jsNum, Option.getD_some] at h
  rw [if_neg (not_le.mpr hv), if_neg (not_lt.mpr hm)] at h
  exact (Option.some.inj h).symm

/-- C2 amended: with positive vote counts and a positive minimum-votes
constant, (1) at equal vote count the record with the higher raw rating
has a higher or equal weighted score, and (2) at equal raw rating the
record with more votes has a weighted score weakly closer to its raw
rating and weakly farther from the global average, and strictly so
whenever the vote counts differ and the raw rating differs from the
global average. -/
theorem weightedRating_monotonicity :
    (∀ R1 R2 v C m s1 s2 : ℚ, 0 < v → 0 < m → R2 ≤ R1 →
      computeWeightedRating (some R1) (some v) (some C) m = some s1 →
      computeWeightedRating (some R2) (some v) (some C) m = some s2 →
      s2 ≤ s1) ∧
    (∀ R v1 v2 C m s1 s2 : ℚ, 0 < v2 → v2 ≤ v1 → 0 < m →
      computeWeightedRating (some R) (some v1) (some C) m = some s1 →
      computeWeightedRating (some R) (some v2) (some C) m = some s2 →
      (|s1 - R| ≤ |s2 - R| ∧ |s2 - C| ≤ |s1 - C| ∧
        (v2 < v1 → R ≠ C → |s1 - R| < |s2 - R| ∧ |s2 - C| < |s1 - C|))) := by
  constructor
  · intro R1 R2 v C m s1 s2 hv hm hR e1 e2
    have h1 := computeWeightedRating_some hv hm.le e1
    have h2 := computeWeightedRating_some hv hm.le e2
    have hvm : (0:ℚ) < v + m := by linarith
    have hq : (0:ℚ) ≤ v / (v + m) := div_nonneg hv.le hvm.le
    have hd : s1 - s2 = v / (v + m) * (R1 - R2) := by rw [h1, h2]; ring
    nlinarith [mul_nonneg hq (sub_nonneg.mpr hR)]
  · intro R v1 v2 C m s1 s2 hv2 hvle hm e1 e2
    have hv1 : (0:ℚ) < v1 := lt_of_lt_of_le hv2 hvle
    have h1 := computeWeightedRating_some hv1 hm.le e1
    have h2 := computeWeightedRating_some hv2 hm.le e2
    have hv1m : (0:ℚ) < v1 + m := by linarith
    have hv2m : (0:ℚ) < v2 + m := by linarith
    have e1R : s1 - R = m / (v1 + m) * (C - R) := by
      rw [h1]
      field_simp
      ring
    have e2R : s2 - R = m / (v2 + m) * (C - R) := by
      rw [h2]
      field_simp
      ring
    have e1C : s1 - C = v1 / (v1 + m) * (R - C) := by
      rw [h1]
      field_simp
      ring
    have e2C : s2 - C = v2 / (v2 + m) * (R - C) := by
      rw [h2]
      field_simp
      ring
    have a1 : |s1 - R| = m / (v1 + m) * |C - R| := by
      rw [e1R, abs_mul, abs_of_pos (div_pos hm hv1m)]
    have a2 : |s2 - R| = m / (v2 + m) * |C - R| := by
      rw [e2R, abs_mul, abs_of_pos (div_pos hm hv2m)]
    have c1 : |s1 - C| = v1 / (v1 + m) * |R - C| := by
      rw [e1C, abs_mul, abs_of_pos (div_pos hv1 hv1m)]
    have c2 : |s2 - C| = v2 / (v2 + m) * |R - C| := by
      rw [e2C, abs_mul, abs_of_pos (div_pos hv2 hv2m)]
    have key1 : m / (v1 + m) ≤ m / (v2 + m) := by
      rw [div_le_div_iff₀ hv1m hv2m]
      nlinarith
    have key2 : v2 / (v2 + m) ≤ v1 / (v1 + m) := by
      rw [div_le_div_iff₀ hv2m hv1m]
      nlinarith
    refine ⟨?_, ?_, ?_⟩
    · rw [a1, a2]
      exact mul_le_mul_of_nonneg_right key1 (abs_nonneg _)
    · rw [c1, c2]
      exact mul_le_mul_of_nonneg_right key2 (abs_nonneg _)
    · intro hvlt hRC
      have habs : (0:ℚ) < |C - R| := abs_pos.mpr (sub_ne_zero.mpr (Ne.symm hRC))
      have habs2 : (0:ℚ) < |R - C| := abs_pos.mpr (sub_ne_zero.mpr hRC)
      have k1 : m / (v1 + m) < m / (v2 + m) := by
        rw [div_lt_div_iff₀ hv1m hv2m]
        nlinarith
      have k2 : v2 / (v2 + m) < v1 / (v1 + m) := by
        rw [div_lt_div_iff₀ hv2m hv1m]
        nlinarith
      constructor
      · rw [a1, a2]
        exact mul_lt_mul_of_pos_right k1 habs
      · rw [c1, c2]
        exact mul_lt_mul_of_pos_right k2 habs2

theorem weightedRating_monotonicity_witness :
    ((100700:ℚ)/2010 ≤ 100800/2010) ∧
    (|(101600:ℚ)/2020 - 80| < |(100800:ℚ)/2010 - 80|) := by
  constructor
  · exact weightedRating_monotonicity.1 80 70 10 50 2000 (100800/2010) (100700/2010)
      (by norm_num) (by norm_num) (by norm_num)
      (by norm_num [computeWeightedRating, jsNum])
      (by norm_num [computeWeightedRating, jsNum])
  · exact ((weightedRating_monotonicity.2 80 20 10 50 2000 (101600/2020) (100800/2010)
      (by norm_num) (by norm_num) (by norm_num)
      (by norm_num [computeWeightedRating, jsNum])
      (by norm_num [computeWeightedRating, jsNum])).2.2 (by norm_num) (by norm_num)).1

/-- C1 counterexample: with a negative minimum rating and a requested
tag carrying trailing whitespace, a record with no rating value at all
is kept by applyFilters although the conditions of the claim fail: it
has no display rating while minRating is not 0, and the requested tag
does not substring-match any record tag before trimming. -/
theorem applyFilters_claim_counterexample :
    exampleUnratedGame ∈ applyFilters [exampleUnratedGame] (-1) ["rpg "] false ∧
    ¬ claimFilterCondition exampleUnratedGame (-1) ["rpg "] false ∧
    getDisplayRating exampleUnratedGame = none ∧
    jsIncludes (jsToLower "RPG") (jsToLower "rpg ") = false := by
  refine ⟨by decide, ?_, by decide, by decide⟩
  rintro ⟨-, h2, -⟩
  rcases h2 with ⟨r, hr, -⟩ | h0
  · rw [show getDisplayRating exampleUnratedGame = none from by decide] at hr
    cases hr
  · norm_num at h0

/-- C1 amended: a record is present in the filtered output only if the
mature flag is off or the record is not classified mature, and its
display rating (weighted, then total, then aggregated, then simple) is
at least minRating or minRating is non-positive, and every requested tag
that is non-blank after trimming case-insensitively substring-matches
some tag of the record. -/
theorem applyFilters_only_if (games : List Game) (minRating : ℚ)
    (tagFilters : List String) (hideMature : Bool) (g : Game)
    (hmem : g ∈ applyFilters games minRating tagFilters hideMature) :
    (hideMature = false ∨ isMatureGame g DEFAULT_MATURE_KEYWORDS = false) ∧
    ((∃ r, getDisplayRating g = some r ∧ minRating ≤ r) ∨ minRating ≤ 0) ∧
    (∀ w ∈ normalizeTagFilters tagFilters, ∃ t ∈ g.tags,
      jsIncludes (jsToLower t) (jsToLower w) = true) := by
  obtain ⟨-, hk⟩ := (mem_applyFilters games minRating tagFilters hideMature g).mp hmem
  rw [keepGame_eq_true_iff, jsOrQ_zero] at hk
  obtain ⟨hmat, hrate, htags⟩ := hk
  refine ⟨?_, ?_, ?_⟩
  · cases hideMature with
    | false => exact Or.inl rfl
    | true => exact Or.inr (hmat rfl)
  · by_cases hpos : 0 < minRating
    · have hle := hrate hpos
      cases hd : getDisplayRating g with
      | none =>
        rw [hd] at hle
        simp only [Option.getD_none] at hle
        linarith
      | some r =>
        rw [hd] at hle
        simp only [Option.getD_some] at hle
        exact Or.inl ⟨r, rfl, hle⟩
    · exact Or.inr (not_lt.mp hpos)
  · intro w hw
    exact htags (jsToLower w) (List.mem_map_of_mem _ hw)

theorem applyFilters_only_if_witness :
    ((true : Bool) = false ∨
      isMatureGame (normalizeGame "t_cover_big" rawQuest) DEFAULT_MATURE_KEYWORDS =
        false) ∧
    ((∃ r, getDisplayRating (normalizeGame "t_cover_big" rawQuest) = some r ∧ 50 ≤ r) ∨
      (50:ℚ) ≤ 0) ∧
    (∀ w ∈ normalizeTagFilters ["RPG"],
      ∃ t ∈ (normalizeGame "t_cover_big" rawQuest).tags,
        jsIncludes (jsToLower t) (jsToLower w) = true) :=
  applyFilters_only_if [normalizeGame "t_cover_big" rawQuest] 50 ["RPG"] true
    (normalizeGame "t_cover_big" rawQuest) (by decide)

/-- C9 counterexample: normalizeGames preserves the upstream order of
genre names, so a record whose genres arrive as Strategy before
Adventure yields a tagsByType.genres array that is not sorted. -/
theorem tagsByType_genres_not_sorted :
    (normalizeGame "t_cover_big" rawUnsortedGenres).tagsByType.genres =
      ["Strategy", "Adventure"] ∧
    ¬ List.Sorted (fun a b : String => a ≤ b)
      ((normalizeGame "t_cover_big" rawUnsortedGenres).tagsByType.genres) := by
  refine ⟨by decide, ?_⟩
  rw [show (normalizeGame "t_cover_big" rawUnsortedGenres).tagsByType.genres =
    ["Strategy", "Adventure"] from by decide]
  intro hs
  rw [List.sorted_cons] at hs
  have := hs.1 "Adventure" (by simp)
  refine absurd this ?_
  rw [String.le_iff_toList_le]
  decide

/-- C9 amended: each of the four tagsByType arrays of a normalized game
is de-duplicated (no two entries share a lower-cased form) and contains
no blank entries; entries keep the upstream order and are not sorted. -/
theorem tagsByType_dedup (raw : RawGame) (coverSize : String) :
    (((normalizeGame coverSize raw).tagsByType.genres.map jsToLower).Nodup ∧
      ∀ n ∈ (normalizeGame coverSize raw).tagsByType.genres, n ≠ "") ∧
    (((normalizeGame coverSize raw).tagsByType.themes.map jsToLower).Nodup ∧
      ∀ n ∈ (normalizeGame coverSize raw).tagsByType.themes, n ≠ "") ∧
    (((normalizeGame coverSize raw).tagsByType.modes.map jsToLower).Nodup ∧
      ∀ n ∈ (normalizeGame coverSize raw).tagsByType.modes, n ≠ "") ∧
    (((normalizeGame coverSize raw).tagsByType.perspectives.map jsToLower).Nodup ∧
      ∀ n ∈ (normalizeGame coverSize raw).tagsByType.perspectives, n ≠ "") := by
  refine ⟨?_, ?_, ?_, ?_⟩ <;>
    exact ⟨(normalizeNameList_nodup _).1, (normalizeNameList_nodup _).2⟩

theorem quest_globalAverage :
    pipelineGlobalAverage [rawQuest] [] [rawBaseA, rawBaseB] "t_cover_big" =
      some 85 := by
  have hbase : (filterToMainGames (normalizeGames [rawBaseA, rawBaseB] "t_cover_big")).map
      (fun g => g.total_rating) = [some 90, some 80] := by decide
  unfold pipelineGlobalAverage
  rw [hbase]
  norm_num [mean, meanAux, jsNum, jsNullish]

theorem quest_ranked_eval :
    rankedCandidates [rawQuest] [] [rawBaseA, rawBaseB] "t_cover_big" =
      [(normalizeGame "t_cover_big" rawQuest, 593/7)] := by
  have hmain : mainCandidates [rawQuest] [] "t_cover_big" =
      [normalizeGame "t_cover_big" rawQuest] := by decide
  have h79 : (normalizeGame "t_cover_big" rawQuest).total_rating = some 79 := rfl
  have h100 : (normalizeGame "t_cover_big" rawQuest).total_rating_count =
      some 100 := rfl
  have hcwr : computeWeightedRating (some 79) (some 100) (some 85)
      TOP_GAMES_MIN_VOTES = some (593/7) := by
    norm_num [computeWeightedRating, jsNum, TOP_GAMES_MIN_VOTES]
  simp only [rankedCandidates, quest_globalAverage, hmain, List.filterMap, h79, h100,
    hcwr]
  simp [sortBy, insertSorted]

theorem quest_topSlice_eval :
    topSlice [rawQuest] [] [rawBaseA, rawBaseB] "t_cover_big" = [questRanked] := by
  simp only [topSlice, quest_globalAverage, quest_ranked_eval]
  rw [List.take_of_length_le (by norm_num [IGDB_MAX_LIMIT_PER_REQUEST])]
  rfl

theorem quest_topGamesAll_eval :
    topGamesAll [rawQuest] [] [rawBaseA, rawBaseB] "t_cover_big" 80 ["RPG"] true =
      [questRanked] := by
  have hdd : dedupById [questRanked] = [questRanked] := by
    simp only [dedupById, dedupByIdAux]
    rfl
  have hmat : isMatureGame questRanked DEFAULT_MATURE_KEYWORDS = false := by decide
  have hdisp : getDisplayRating questRanked = some (593/7) := rfl
  have hwanted : (normalizeTagFilters ["RPG"]).map jsToLower = ["rpg"] := by decide
  have htag : ((questRanked.tags.map jsToLower).any fun tag => jsIncludes tag "rpg") =
      true := by decide
  unfold topGamesAll
  rw [quest_topSlice_eval, hdd]
  unfold applyFilters
  rw [hwanted]
  norm_num [keepGame, jsOrQ, hmat, hdisp, htag, List.filter]
  rw [show (decide (∀ x ∈ questRanked.tags, jsIncludes (jsToLower x) "rpg" = false)) =
    false from by decide]
  rfl

/-- C6 counterexample: the top-games request with minRating 80, tag RPG
and the mature filter on returns a record whose total_rating is 79,
because the rating filter tests the Bayesian weighted rating 593/7,
which is at least 80, rather than the raw total rating. -/
theorem topGames_includes_total_rating_below_80 :
    ((topGamesAll [rawQuest] [] [rawBaseA, rawBaseB] "t_cover_big" 80 ["RPG"] true).map
      fun g => g.total_rating) = [some 79] ∧ (79:ℚ) < 80 := by
  rw [quest_topGamesAll_eval]
  exact ⟨rfl, by norm_num⟩

/-- C6 amended: every record returned for the request with minRating 80,
tags RPG and hideMature on has a display rating (here the weighted
rating) of at least 80, has some tag containing rpg case-insensitively
(hence is never tagged only Shooter), and is not classified mature (in
particular its title contains no mature keyword); its raw total_rating
may nevertheless lie below 80. -/
theorem topGames_request_guarantees (rawR rawV rawB : List RawGame) (cs : String)
    (g : Game) (hmem : g ∈ topGamesAll rawR rawV rawB cs 80 ["RPG"] true) :
    (∃ r, getDisplayRating g = some r ∧ 80 ≤ r) ∧
    (∃ t ∈ g.tags, jsIncludes (jsToLower t) "rpg" = true) ∧
    g.tags ≠ ["Shooter"] ∧
    isMatureGame g DEFAULT_MATURE_KEYWORDS = false ∧
    containsMatureKeyword (some g.name) DEFAULT_MATURE_KEYWORDS = false := by
  obtain ⟨-, hk⟩ := (mem_applyFilters _ _ _ _ _).mp hmem
  rw [keepGame_eq_true_iff, jsOrQ_zero] at hk
  obtain ⟨hmat, hrate, htags⟩ := hk
  have hmatf : isMatureGame g DEFAULT_MATURE_KEYWORDS = false := hmat rfl
  have hdisp : ∃ r, getDisplayRating g = some r ∧ 80 ≤ r := by
    have hle := hrate (by norm_num)
    cases hd : getDisplayRating g with
    | none =>
      rw [hd] at hle
      simp only [Option.getD_none] at hle
      linarith
    | some r =>
      rw [hd] at hle
      simp only [Option.getD_some] at hle
      exact ⟨r, rfl, hle⟩
  have hw : "rpg" ∈ (normalizeTagFilters ["RPG"]).map jsToLower := by decide
  obtain ⟨t, ht, hinc⟩ := htags "rpg" hw
  refine ⟨hdisp, ⟨t, ht, hinc⟩, ?_, hmatf, ?_⟩
  · intro hsh
    rw [hsh] at ht
    rcases List.mem_singleton.mp ht with rfl
    rw [show jsIncludes (jsToLower "Shooter") "rpg" = false from by decide] at hinc
    cases hinc
  · have h2 := hmatf
    unfold isMatureGame at h2
    exact (Bool.or_eq_false_iff.mp (Bool.or_eq_false_iff.mp h2).1).1

theorem topGames_request_guarantees_witness :
    (∃ r, getDisplayRating questRanked = some r ∧ 80 ≤ r) ∧
    (∃ t ∈ questRanked.tags, jsIncludes (jsToLower t) "rpg" = true) ∧
    questRanked.tags ≠ ["Shooter"] ∧
    isMatureGame questRanked DEFAULT_MATURE_KEYWORDS = false ∧
    containsMatureKeyword (some questRanked.name) DEFAULT_MATURE_KEYWORDS = false :=
  topGames_request_guarantees [rawQuest] [] [rawBaseA, rawBaseB] "t_cover_big"
    questRanked (by rw [quest_topGamesAll_eval]; exact List.mem_singleton.mpr rfl)

theorem mystery_globalAverage :
    pipelineGlobalAverage [rawMystery] [] [rawBaseA, rawBaseB] "t_cover_big" =
      some 85 := by
  have hbase : (filterToMainGames (normalizeGames [rawBaseA, rawBaseB] "t_cover_big")).map
      (fun g => g.total_rating) = [some 90, some 80] := by decide
  unfold pipelineGlobalAverage
  rw [hbase]
  norm_num [mean, meanAux, jsNum, jsNullish]

theorem mystery_ranked_eval :
    rankedCandidates [rawMystery] [] [rawBaseA, rawBaseB] "t_cover_big" =
      [(normalizeGame "t_cover_big" rawMystery, 3400/41)] := by
  have hmain : mainCandidates [rawMystery] [] "t_cover_big" =
      [normalizeGame "t_cover_big" rawMystery] := by decide
  have hr : (normalizeGame "t_cover_big" rawMystery).total_rating = none := rfl
  have hv : (normalizeGame "t_cover_big" rawMystery).total_rating_count =
      some 50 := rfl
  have hcwr : computeWeightedRating none (some 50) (some 85) TOP_GAMES_MIN_VOTES =
      some (3400/41) := by
    norm_num [computeWeightedRating, jsNum, TOP_GAMES_MIN_VOTES]
  simp only [rankedCandidates, mystery_globalAverage, hmain, List.filterMap, hr, hv,
    hcwr]
  simp [sortBy, insertSorted]

theorem mystery_topSlice_eval :
    topSlice [rawMystery] [] [rawBaseA, rawBaseB] "t_cover_big" = [mysteryRanked] := by
  simp only [topSlice, mystery_globalAverage, mystery_ranked_eval]
  rw [List.take_of_length_le (by norm_num [IGDB_MAX_LIMIT_PER_REQUEST])]
  rfl

theorem mystery_topGamesAll_eval :
    topGamesAll [rawMystery] [] [rawBaseA, rawBaseB] "t_cover_big" 0 [] true =
      [mysteryRanked] := by
  have hdd : dedupById [mysteryRanked] = [mysteryRanked] := by
    simp only [dedupById, dedupByIdAux]
    rfl
  have hmat : isMatureGame mysteryRanked DEFAULT_MATURE_KEYWORDS = false := by decide
  unfold topGamesAll
  rw [mystery_topSlice_eval, hdd]
  unfold applyFilters
  norm_num [keepGame, jsOrQ, hmat, normalizeTagFilters, List.filter]

/-- C10 counterexample: a candidate whose total_rating is missing but
whose vote count is positive is not excluded: Number coerces the missing
rating to 0 and the record is ranked with score (2000 * 85) / 2050 and
returned. -/
theorem topGames_missing_total_rating_not_excluded :
    ((topGamesAll [rawMystery] [] [rawBaseA, rawBaseB] "t_cover_big" 0 [] true).map
      fun g => (g.total_rating, g.weighted_rating)) =
      [(none, some (3400/41))] := by
  rw [mystery_topGamesAll_eval]
  rfl

/-- C10 amended: every record returned by the top-games branch carries a
non-null weighted_rating and a weighted_rating_meta holding the computed
global average and the minimum-votes constant, and its vote count is
strictly positive (so candidates with a missing or non-positive
total_rating_count are excluded); a missing total_rating however is
coerced to 0 and does not by itself exclude a candidate. -/
theorem topGames_output_weighted_shape (rawR rawV rawB : List RawGame) (cs : String)
    (mr : ℚ) (tf : List String) (hm : Bool) (g : Game)
    (hmem : g ∈ topGamesAll rawR rawV rawB cs mr tf hm) :
    (∃ s, g.weighted_rating = some s) ∧
    g.weighted_rating_meta =
      some { globalAverage := pipelineGlobalAverage rawR rawV rawB cs,
             minVotes := TOP_GAMES_MIN_VOTES } ∧
    0 < jsNum g.total_rating_count := by
  obtain ⟨hmem1, -⟩ := (mem_applyFilters _ _ _ _ _).mp hmem
  have hmem2 := mem_dedupById _ g hmem1
  simp only [topSlice] at hmem2
  obtain ⟨x, hx, rfl⟩ := List.mem_map.1 hmem2
  have hxr : x ∈ rankedCandidates rawR rawV rawB cs := List.mem_of_mem_take hx
  simp only [rankedCandidates] at hxr
  rw [mem_sortBy] at hxr
  obtain ⟨g0, hg0, hfm⟩ := List.mem_filterMap.1 hxr
  cases hc : computeWeightedRating g0.total_rating g0.total_rating_count
      (pipelineGlobalAverage rawR rawV rawB cs) TOP_GAMES_MIN_VOTES with
  | none =>
    rw [hc] at hfm
    cases hfm
  | some s =>
    rw [hc] at hfm
    obtain rfl := Option.some.inj hfm
    refine ⟨⟨s, rfl⟩, rfl, ?_⟩
    by_contra hng
    push_neg at hng
    simp only [computeWeightedRating] at hc
    rw [if_pos hng] at hc
    cases hc

theorem topGames_output_weighted_shape_witness :
    (∃ s, mysteryRanked.weighted_rating = some s) ∧
    mysteryRanked.weighted_rating_meta =
      some { globalAverage :=
               pipelineGlobalAverage [rawMystery] [] [rawBaseA, rawBaseB] "t_cover_big",
             minVotes := TOP_GAMES_MIN_VOTES } ∧
    0 < jsNum mysteryRanked.total_rating_count :=
  topGames_output_weighted_shape [rawMystery] [] [rawBaseA, rawBaseB] "t_cover_big"
    0 [] true mysteryRanked
    (by rw [mystery_topGamesAll_eval]; exact List.mem_singleton.mpr rfl)

theorem safePage_coe {p : ℕ} (hp : 1 ≤ p) : safePage (p : Int) = (p : Int) := by
  unfold safePage jsOrI
  rw [if_neg (by exact_mod_cast Nat.one_le_iff_ne_zero.mp hp)]
  rw [max_eq_right (by exact_mod_cast hp)]

theorem safePageSize_coe {s : ℕ} (hs1 : 1 ≤ s) (hs20 : s ≤ 20) :
    safePageSize (s : Int) = (s : Int) := by
  unfold safePageSize jsOrI DEFAULT_PAGE_SIZE
  rw [if_neg (by exact_mod_cast Nat.one_le_iff_ne_zero.mp hs1)]
  rw [min_eq_left (by exact_mod_cast hs20)]
  rw [max_eq_right (by exact_mod_cast hs1)]

theorem mkPageResponse_games (payload : Payload) {p s : ℕ} (hp : 1 ≤ p)
    (hs1 : 1 ≤ s) (hs20 : s ≤ 20) :
    (mkPageResponse payload (p : Int) (s : Int)).games =
      (payload.gamesAll.drop ((p - 1) * s)).take s := by
  simp only [mkPageResponse, sliceGames, safePage_coe hp, safePageSize_coe hs1 hs20]
  have h1 : ((p : Int) - 1) * (s : Int) = (((p - 1) * s : ℕ) : Int) := by
    push_cast [Nat.cast_sub hp]
    ring
  rw [h1, Int.toNat_natCast, Int.toNat_natCast]

theorem mkPageResponse_hasMore (payload : Payload) {p s : ℕ} (hp : 1 ≤ p)
    (hs1 : 1 ≤ s) (hs20 : s ≤ 20) :
    ((mkPageResponse payload (p : Int) (s : Int)).hasMore = true ↔
      payload.gamesAll.drop ((p - 1) * s + s) ≠ []) := by
  simp only [mkPageResponse, safePage_coe hp, safePageSize_coe hs1 hs20,
    decide_eq_true_eq]
  rw [ne_eq, List.drop_eq_nil_iff, not_le]
  constructor
  · intro h
    have hcast : ((p : Int) - 1) * (s : Int) = (((p - 1) * s : ℕ) : Int) := by
      push_cast [Nat.cast_sub hp]
      ring
    rw [hcast] at h
    exact_mod_cast h
  · intro h
    have hcast : ((p : Int) - 1) * (s : Int) = (((p - 1) * s : ℕ) : Int) := by
      push_cast [Nat.cast_sub hp]
      ring
    rw [hcast]
    exact_mod_cast h

theorem join_chunks (l : List Game) (s : ℕ) (k : ℕ) :
    (List.range k).flatMap (fun i => (l.drop (i * s)).take s) = l.take (k * s) := by
  induction k with
  | zero => simp
  | succ n ih =>
    rw [List.range_succ, List.flatMap_append, ih]
    have hsing : (List.flatMap [n] fun i => (l.drop (i * s)).take s) =
        (l.drop (n * s)).take s := by
      simp [List.flatMap]
    rw [hsing, show (n + 1) * s = n * s + s by ring, List.take_add]

/-- C5: over a cached payload whose candidate list is built as every
branch builds it (id de-duplication then filtering), page p at a fixed
page size s in the accepted range returns exactly the slice starting at
(p-1)*s of length s, hasMore is true exactly when items remain past that
slice, concatenating pages 1..N for any N covering the list reconstructs
the whole list, and the ids of the list are pairwise distinct. -/
theorem pagination_reconstructs (payload : Payload) (gs : List Game) (mr : ℚ)
    (tf : List String) (hm : Bool)
    (hall : payload.gamesAll = applyFilters (dedupById gs) mr tf hm)
    (s : ℕ) (hs1 : 1 ≤ s) (hs20 : s ≤ 20) :
    (∀ p : ℕ, 1 ≤ p →
      (mkPageResponse payload (p : Int) (s : Int)).games =
        (payload.gamesAll.drop ((p - 1) * s)).take s ∧
      ((mkPageResponse payload (p : Int) (s : Int)).hasMore = true ↔
        payload.gamesAll.drop ((p - 1) * s + s) ≠ [])) ∧
    (∀ N : ℕ, payload.gamesAll.length ≤ N * s →
      (List.range N).flatMap
        (fun i => (mkPageResponse payload ((i + 1 : ℕ) : Int) (s : Int)).games) =
        payload.gamesAll) ∧
    (payload.gamesAll.map Game.id).Nodup := by
  refine ⟨?_, ?_, ?_⟩
  · intro p hp
    exact ⟨mkPageResponse_games payload hp hs1 hs20,
      mkPageResponse_hasMore payload hp hs1 hs20⟩
  · intro N hN
    have hgames : ∀ i : ℕ,
        (mkPageResponse payload ((i + 1 : ℕ) : Int) (s : Int)).games =
          (payload.gamesAll.drop (i * s)).take s := by
      intro i
      rw [mkPageResponse_games payload (Nat.le_add_left 1 i) hs1 hs20]
      simp
    simp only [hgames]
    rw [join_chunks]
    exact List.take_of_length_le hN
  · rw [hall]
    have hsub : List.Sublist ((applyFilters (dedupById gs) mr tf hm).map Game.id)
        ((dedupById gs).map Game.id) := by
      simp only [applyFilters]
      exact (List.filter_sublist _).map Game.id
    exact (dedupById_ids_nodup gs).sublist hsub

theorem pagination_reconstructs_witness :
    (∀ p : ℕ, 1 ≤ p →
      (mkPageResponse
        { fetchedAt := 0, mode := "top-games", q := none,
          gamesAll := applyFilters (dedupById [exampleUnratedGame]) 0 [] true }
        (p : Int) ((5 : ℕ) : Int)).games =
        ((applyFilters (dedupById [exampleUnratedGame]) 0 [] true).drop
          ((p - 1) * 5)).take 5 ∧
      ((mkPageResponse
        { fetchedAt := 0, mode := "top-games", q := none,
          gamesAll := applyFilters (dedupById [exampleUnratedGame]) 0 [] true }
        (p : Int) ((5 : ℕ) : Int)).hasMore = true ↔
        (applyFilters (dedupById [exampleUnratedGame]) 0 [] true).drop
          ((p - 1) * 5 + 5) ≠ [])) ∧
    (∀ N : ℕ,
      (applyFilters (dedupById [exampleUnratedGame]) 0 [] true).length ≤ N * 5 →
      (List.range N).flatMap
        (fun i => (mkPageResponse
          { fetchedAt := 0, mode := "top-games", q := none,
            gamesAll := applyFilters (dedupById [exampleUnratedGame]) 0 [] true }
          ((i + 1 : ℕ) : Int) ((5 : ℕ) : Int)).games) =
        applyFilters (dedupById [exampleUnratedGame]) 0 [] true) ∧
    ((applyFilters (dedupById [exampleUnratedGame]) 0 [] true).map Game.id).Nodup :=
  pagination_reconstructs
    { fetchedAt := 0, mode := "top-games", q := none,
      gamesAll := applyFilters (dedupById [exampleUnratedGame]) 0 [] true }
    [exampleUnratedGame] 0 [] true rfl 5 (by norm_num) (by norm_num)

theorem fetchModel_miss (cache : Cache) (t : Int) (args : FetchArgs)
    (up : UpstreamData) (c1 : Cache) (p1 : Payload) (r1 : PageResponse)
    (hmiss : freshEntry cache (mkCacheKey args) t = none)
    (h1 : fetchIgdbGamesModel cache t args up = some (c1, p1, r1)) :
    c1 = alistSet cache (mkCacheKey args) { cachedAt := t, payload := p1 } ∧
    r1 = mkPageResponse p1 args.page args.pageSize ∧
    p1.fetchedAt = t := by
  simp only [fetchIgdbGamesModel, hmiss] at h1
  cases hca : computeGamesAll args up t with
  | none =>
    rw [hca] at h1
    cases h1
  | some all =>
    rw [hca] at h1
    simp only [Option.some.injEq, Prod.mk.injEq] at h1
    obtain ⟨hc, hp, hr⟩ := h1
    subst hc
    subst hp
    subst hr
    exact ⟨rfl, rfl, rfl⟩

theorem freshEntry_set_fresh (cache : Cache) (key : CacheKey) (t t2 : Int)
    (p : Payload) (httl : t2 - t < CACHE_TTL_MS) :
    freshEntry (alistSet cache key { cachedAt := t, payload := p }) key t2 =
      some { cachedAt := t, payload := p } := by
  unfold freshEntry
  rw [alistGet_alistSet_self]
  exact if_pos httl

/-- C3: when a first call misses the cache and succeeds, a second call
with the same cache key within the time-to-live leaves the cache
unchanged, is served the very payload the first call stored (same
pre-pagination gamesAll and same fetchedAt, which equals the first
call's clock) regardless of what the upstream would now return, and
merely re-slices it with its own page arguments. -/
theorem cached_fetch_identical (cache0 : Cache) (t1 t2 : Int) (args1 args2 : FetchArgs)
    (up1 up2 : UpstreamData) (c1 : Cache) (p1 : Payload) (r1 : PageResponse)
    (hkey : mkCacheKey args2 = mkCacheKey args1)
    (hmiss : freshEntry cache0 (mkCacheKey args1) t1 = none)
    (h1 : fetchIgdbGamesModel cache0 t1 args1 up1 = some (c1, p1, r1))
    (httl : t2 - t1 < CACHE_TTL_MS) :
    fetchIgdbGamesModel c1 t2 args2 up2 =
      some (c1, p1, mkPageResponse p1 args2.page args2.pageSize) ∧
    r1 = mkPageResponse p1 args1.page args1.pageSize ∧
    p1.fetchedAt = t1 := by
  obtain ⟨hc, hr, hf⟩ := fetchModel_miss cache0 t1 args1 up1 c1 p1 r1 hmiss h1
  refine ⟨?_, hr, hf⟩
  have hfe : freshEntry c1 (mkCacheKey args2) t2 =
      some { cachedAt := t1, payload := p1 } := by
    rw [hkey, hc]
    exact freshEntry_set_fresh cache0 (mkCacheKey args1) t1 t2 p1 httl
  simp only [fetchIgdbGamesModel, hfe]

theorem fetch_mystery_eval :
    fetchIgdbGamesModel [] 0 argsTop upMystery =
      some (alistSet [] (mkCacheKey argsTop) { cachedAt := 0, payload := payloadMystery },
        payloadMystery, mkPageResponse payloadMystery argsTop.page argsTop.pageSize) := by
  have hcga : computeGamesAll argsTop upMystery 0 = some [mysteryRanked] := by
    rw [show computeGamesAll argsTop upMystery 0 =
      some (topGamesAll [rawMystery] [] [rawBaseA, rawBaseB] "t_cover_big" 0 [] true)
      from rfl, mystery_topGamesAll_eval]
  simp only [fetchIgdbGamesModel,
    show freshEntry [] (mkCacheKey argsTop) 0 = none from rfl, hcga]
  rfl

theorem cached_fetch_identical_witness :
    fetchIgdbGamesModel
        (alistSet [] (mkCacheKey argsTop) { cachedAt := 0, payload := payloadMystery })
        1000 argsTop { } =
      some (alistSet [] (mkCacheKey argsTop) { cachedAt := 0, payload := payloadMystery },
        payloadMystery, mkPageResponse payloadMystery argsTop.page argsTop.pageSize) ∧
    mkPageResponse payloadMystery argsTop.page argsTop.pageSize =
      mkPageResponse payloadMystery argsTop.page argsTop.pageSize ∧
    payloadMystery.fetchedAt = 0 :=
  cached_fetch_identical [] 0 1000 argsTop argsTop upMystery { }
    (alistSet [] (mkCacheKey argsTop) { cachedAt := 0, payload := payloadMystery })
    payloadMystery (mkPageResponse payloadMystery argsTop.page argsTop.pageSize)
    rfl rfl fetch_mystery_eval (by decide)

/-- C4 counterexample: two requests for the same key that both read the
cache before either has stored a result perform two upstream fetches,
not the single fetch the claim requires; the source has no in-flight
promise map, so the second request cannot await the first. -/
theorem concurrent_same_key_two_fetches :
    concurrentFetchCount [] 0 argsTop = 2 ∧ (2 : ℕ) ≠ 1 := by
  constructor
  · rfl
  · decide

/-- C4 amended: there is no single-flight deduplication: whenever the
cache has no fresh entry for a key, each of two concurrent requests
whose entry reads precede the first store performs its own upstream
fetch (two in total); a request is deduplicated only when it starts
after a completed fetch has stored the entry, within the time-to-live. -/
theorem no_single_flight (cache : Cache) (t : Int) (args : FetchArgs)
    (hmiss : freshEntry cache (mkCacheKey args) t = none) :
    concurrentFetchCount cache t args = 2 ∧
    (∀ t2 up c1 p1 r1, fetchIgdbGamesModel cache t args up = some (c1, p1, r1) →
      t2 - t < CACHE_TTL_MS → fetchCountFrom c1 t2 args = 0) := by
  constructor
  · simp [concurrentFetchCount, fetchCountFrom, hmiss]
  · intro t2 up c1 p1 r1 h1 httl
    obtain ⟨hc, -, -⟩ := fetchModel_miss cache t args up c1 p1 r1 hmiss h1
    unfold fetchCountFrom
    rw [hc, freshEntry_set_fresh cache (mkCacheKey args) t t2 p1 httl]
    rfl

theorem no_single_flight_witness :
    concurrentFetchCount [] 0 argsTop = 2 ∧
    (∀ t2 up c1 p1 r1, fetchIgdbGamesModel [] 0 argsTop up = some (c1, p1, r1) →
      t2 - 0 < CACHE_TTL_MS → fetchCountFrom c1 t2 argsTop = 0) :=
  no_single_flight [] 0 argsTop rfl

/-- C8: when the token request or any of the three catalog queries of a
top-games request returns a non-ok response, the aggregator surfaces a
generic failure whose message contains the serialized body of the first
failing response, no upstream request is issued twice (no retry), and
the route handler converts the failure into HTTP status 500 with a JSON
error body. -/
theorem upstream_failure_surfaced (u : TopGamesUpstream)
    (hfail : u.tokenResp.ok = false ∨ u.ratingResp.ok = false ∨
      u.votesResp.ok = false ∨ u.baselineResp.ok = false) :
    ∃ m, (topGamesUpstreamRun u).2 = Except.error m ∧
      jsIncludes m (firstFailingBody u) = true ∧
      (topGamesUpstreamRun u).1.Nodup ∧
      routeGET (Except.error m) = (500, RouteBody.errorBody m) := by
  cases htok : u.tokenResp.ok with
  | false =>
    refine ⟨"Token request failed: " ++ u.tokenResp.body, ?_, ?_, ?_, rfl⟩
    · simp [topGamesUpstreamRun, getAccessTokenM, htok]
    · simp only [firstFailingBody, htok, Bool.not_false, if_pos]
      exact jsIncludes_append_left _ _
    · simp [topGamesUpstreamRun, getAccessTokenM, htok]
  | true =>
    have htrace : (topGamesUpstreamRun u).1.Nodup := by
      simp only [topGamesUpstreamRun, getAccessTokenM, htok, if_pos]
      decide
    cases hr : u.ratingResp.ok with
    | false =>
      refine ⟨"IGDB query failed: " ++ u.ratingResp.body, ?_, ?_, htrace, rfl⟩
      · simp [topGamesUpstreamRun, getAccessTokenM, igdbQueryM, promiseAll3, htok, hr]
      · simp only [firstFailingBody, htok, hr, Bool.not_true, Bool.not_false,
          if_neg, if_pos]
        exact jsIncludes_append_left _ _
    | true =>
      cases hv : u.votesResp.ok with
      | false =>
        refine ⟨"IGDB query failed: " ++ u.votesResp.body, ?_, ?_, htrace, rfl⟩
        · simp [topGamesUpstreamRun, getAccessTokenM, igdbQueryM, promiseAll3,
            htok, hr, hv]
        · simp only [firstFailingBody, htok, hr, hv, Bool.not_true, Bool.not_false]
          rw [if_neg (by simp), if_neg (by simp), if_pos trivial]
          exact jsIncludes_append_left _ _
      | true =>
        cases hb : u.baselineResp.ok with
        | false =>
          refine ⟨"IGDB query failed: " ++ u.baselineResp.body, ?_, ?_, htrace, rfl⟩
          · simp [topGamesUpstreamRun, getAccessTokenM, igdbQueryM, promiseAll3,
              htok, hr, hv, hb]
          · simp only [firstFailingBody, htok, hr, hv, Bool.not_true]
            rw [if_neg (by simp), if_neg (by simp), if_neg (by simp)]
            exact jsIncludes_append_left _ _
        | true =>
          rcases hfail with h | h | h | h <;> simp_all

theorem upstream_failure_surfaced_witness :
    ∃ m, (topGamesUpstreamRun
        { tokenResp := { ok := false, body := "denied", access_token := "", expires_in := 0 },
          ratingResp := { ok := true, body := "", games := [] },
          votesResp := { ok := true, body := "", games := [] },
          baselineResp := { ok := true, body := "", games := [] } }).2 = Except.error m ∧
      jsIncludes m (firstFailingBody
        { tokenResp := { ok := false, body := "denied", access_token := "", expires_in := 0 },
          ratingResp := { ok := true, body := "", games := [] },
          votesResp := { ok := true, body := "", games := [] },
          baselineResp := { ok := true, body := "", games := [] } }) = true ∧
      (topGamesUpstreamRun
        { tokenResp := { ok := false, body := "denied", access_token := "", expires_in := 0 },
          ratingResp := { ok := true, body := "", games := [] },
          votesResp := { ok := true, body := "", games := [] },
          baselineResp := { ok := true, body := "", games := [] } }).1.Nodup ∧
      routeGET (Except.error m) = (500, RouteBody.errorBody m) :=
  upstream_failure_surfaced _ (Or.inl rfl)

end MyGameList
